import Mathlib

/-!
Verification of `torch_geometric_temporal/signal/dynamic_graph_temporal_signal_batch.py`,
the `DynamicGraphTemporalSignalBatch` container.

Shallow embedding conventions:
  * A numpy array is modelled by `NDArray`: a shape together with its flat data,
    tagged by its dtype kind (`"i"` integer, `"f"` floating, `"b"` boolean, the
    kinds that matter to the code's `dtype.kind` tests).  Numeric values are
    exact (`Int` / `Rat`): the code copies values between representations and
    performs no arithmetic on them.
  * A torch tensor is modelled by `Tensor` with two constructors, `long`
    (`torch.LongTensor`) and `float` (`torch.FloatTensor`).
  * Python `list[i]` indexing (which wraps negative indices and raises
    `IndexError` out of range) is `pyGet : List α → Int → Option α`, `none`
    meaning the raised `IndexError`.
  * A raised exception is `none` in an `Option` result; the `assert`-guarded
    constructor returns `none` when `_check_temporal_consistency` fails.
  * `**kwargs` (the additional features) is an ordered association list
    `List (String × List NDArray)`; Python keyword arguments are ordered and
    have distinct keys, and only order and lookup are ever used by the code.
-/

set_option autoImplicit false

namespace DGTSB

/-- A numpy array: flat data tagged with the dtype kind the code branches on
(`dtype.kind == "i"` / `"f"`), plus its shape. -/
inductive NDArray where
  | intArr   (shape : List Nat) (data : List Int)
  | floatArr (shape : List Nat) (data : List Rat)
  | boolArr  (shape : List Nat) (data : List Bool)
  deriving DecidableEq, Repr

namespace NDArray

/-- `arr.dtype.kind` of numpy, restricted to the kinds the model carries. -/
def kind : NDArray → Char
  | .intArr _ _ => 'i'
  | .floatArr _ _ => 'f'
  | .boolArr _ _ => 'b'

def shape : NDArray → List Nat
  | .intArr s _ => s
  | .floatArr s _ => s
  | .boolArr s _ => s

/-- The numeric values of the array, flattened (booleans count as 0/1, as in
numpy's numeric coercion). -/
def values : NDArray → List Rat
  | .intArr _ d => d.map (fun i => (i : Rat))
  | .floatArr _ d => d
  | .boolArr _ d => d.map (fun b => if b then 1 else 0)

end NDArray

/-- A torch tensor: `long` is an integer (`torch.LongTensor`) and `float` a
floating-point (`torch.FloatTensor`) tensor. -/
inductive Tensor where
  | long  (shape : List Nat) (data : List Int)
  | float (shape : List Nat) (data : List Rat)
  deriving DecidableEq, Repr

namespace Tensor

def isLong : Tensor → Bool
  | .long _ _ => true
  | .float _ _ => false

def isFloat : Tensor → Bool
  | .long _ _ => false
  | .float _ _ => true

def shape : Tensor → List Nat
  | .long s _ => s
  | .float s _ => s

/-- The numeric values held by the tensor, flattened. -/
def values : Tensor → List Rat
  | .long _ d => d.map (fun i => (i : Rat))
  | .float _ d => d

end Tensor

/-- Truncation toward zero, the conversion `torch.LongTensor` applies to
floating-point input (C's `(long)x`). -/
def ratTrunc (q : Rat) : Int := if 0 ≤ q then ⌊q⌋ else ⌈q⌉

/-- `torch.LongTensor(arr)`: copy into an int64 tensor, truncating
floating-point values toward zero and widening booleans to 0/1. -/
def NDArray.toLongTensor : NDArray → Tensor
  | .intArr s d => .long s d
  | .floatArr s d => .long s (d.map ratTrunc)
  | .boolArr s d => .long s (d.map (fun b => if b then 1 else 0))

/-- `torch.FloatTensor(arr)`: copy into a floating-point tensor. -/
def NDArray.toFloatTensor : NDArray → Tensor
  | .intArr s d => .float s (d.map (fun i => (i : Rat)))
  | .floatArr s d => .float s d
  | .boolArr s d => .float s (d.map (fun b => if b then 1 else 0))

/-- Python list indexing `l[i]`: a negative index wraps by the length, an
index out of `[-len, len)` raises `IndexError` (modelled as `none`). -/
def pyGet {α : Type} (l : List α) (i : Int) : Option α :=
  if 0 ≤ i then l[i.toNat]?
  else if 0 ≤ i + l.length then l[(i + (l.length : Int)).toNat]?
  else none

/-- The state of a `DynamicGraphTemporalSignalBatch` object: the five core
sequences (each element a numpy array or `None`) and the ordered additional
feature sequences from `**kwargs` (elements never `None`, per the type
annotation `Additional_Features = List[np.ndarray]`). -/
structure Signal where
  edge_indices : List (Option NDArray)
  edge_weights : List (Option NDArray)
  features : List (Option NDArray)
  targets : List (Option NDArray)
  batches : List (Option NDArray)
  additional_features : List (String × List NDArray)
  deriving DecidableEq, Repr

namespace Signal

/-- `_check_temporal_consistency`: the four pairwise length asserts over the
core sequences, then one assert per additional feature key. -/
def check_temporal_consistency (s : Signal) : Bool :=
  (s.features.length == s.targets.length) &&
  (s.edge_indices.length == s.edge_weights.length) &&
  (s.features.length == s.edge_weights.length) &&
  (s.features.length == s.batches.length) &&
  s.additional_features.all (fun kv => s.targets.length == kv.2.length)

/-- `_set_snapshot_count`: `snapshot_count = len(features)`. -/
def snapshot_count (s : Signal) : Nat := s.features.length

/-- `__init__`: store the sequences and the kwarg keys, then run
`_check_temporal_consistency` (a failing assert raises, so no object is
produced) and `_set_snapshot_count`. -/
def construct (edge_indices edge_weights features targets batches :
    List (Option NDArray))
    (kwargs : List (String × List NDArray)) : Option Signal :=
  let s : Signal :=
    ⟨edge_indices, edge_weights, features, targets, batches, kwargs⟩
  if s.check_temporal_consistency then some s else none

/-- `_get_edge_index`: `None` passes through, otherwise `torch.LongTensor`.
The outer `Option` is the possible `IndexError`. -/
def get_edge_index (s : Signal) (time_index : Int) :
    Option (Option Tensor) :=
  (pyGet s.edge_indices time_index).map fun e =>
    match e with
    | none => none
    | some arr => some arr.toLongTensor

/-- `_get_batch_index`: `None` passes through, otherwise `torch.LongTensor`. -/
def get_batch_index (s : Signal) (time_index : Int) :
    Option (Option Tensor) :=
  (pyGet s.batches time_index).map fun e =>
    match e with
    | none => none
    | some arr => some arr.toLongTensor

/-- `_get_edge_weight`: `None` passes through, otherwise `torch.FloatTensor`. -/
def get_edge_weight (s : Signal) (time_index : Int) :
    Option (Option Tensor) :=
  (pyGet s.edge_weights time_index).map fun e =>
    match e with
    | none => none
    | some arr => some arr.toFloatTensor

/-- `_get_feature`: `None` passes through, otherwise `torch.FloatTensor`. -/
def get_feature (s : Signal) (time_index : Int) :
    Option (Option Tensor) :=
  (pyGet s.features time_index).map fun e =>
    match e with
    | none => none
    | some arr => some arr.toFloatTensor

/-- The dtype branch of `_get_target` / `_get_additional_feature`: integer
kind to `LongTensor`, floating kind to `FloatTensor`, any other kind falls
off the end of the Python function and yields `None`. -/
def kindConvert (arr : NDArray) : Option Tensor :=
  if arr.kind == 'i' then some arr.toLongTensor
  else if arr.kind == 'f' then some arr.toFloatTensor
  else none

/-- `_get_target`: `None` passes through, otherwise branch on `dtype.kind`. -/
def get_target (s : Signal) (time_index : Int) :
    Option (Option Tensor) :=
  (pyGet s.targets time_index).map fun e =>
    match e with
    | none => none
    | some arr => kindConvert arr

/-- `_get_additional_feature` on one key's sequence: index (never `None` by
the kwarg type), then the same dtype branch as `_get_target`. -/
def get_additional_feature (seq : List NDArray) (time_index : Int) :
    Option (Option Tensor) :=
  (pyGet seq time_index).map kindConvert

/-- The dict comprehension of `_get_additional_features`, key by key in kwarg
order; an `IndexError` raised for any key propagates. -/
def convertAdditional (time_index : Int) :
    List (String × List NDArray) → Option (List (String × Option Tensor))
  | [] => some []
  | kv :: rest => do
    let v ← get_additional_feature kv.2 time_index
    let vs ← convertAdditional time_index rest
    pure ((kv.1, v) :: vs)

/-- `_get_additional_features`: the dict comprehension over
`additional_feature_keys`, in key order. -/
def get_additional_features (s : Signal) (time_index : Int) :
    Option (List (String × Option Tensor)) :=
  convertAdditional time_index s.additional_features

end Signal

/-- The `Batch` snapshot assembled by `__get_item__`: the five converted core
fields plus the additional-feature mapping. -/
structure Snapshot where
  x : Option Tensor
  edge_index : Option Tensor
  edge_attr : Option Tensor
  y : Option Tensor
  batch : Option Tensor
  additional : List (String × Option Tensor)
  deriving DecidableEq, Repr

/-- `__get_item__`: convert each field at `time_index` and assemble the
`Batch`; an `IndexError` in any accessor propagates. -/
def Signal.get_item (s : Signal) (time_index : Int) : Option Snapshot := do
  let x ← s.get_feature time_index
  let edge_index ← s.get_edge_index time_index
  let edge_weight ← s.get_edge_weight time_index
  let batch ← s.get_batch_index time_index
  let y ← s.get_target time_index
  let additional ← s.get_additional_features time_index
  pure ⟨x, edge_index, edge_weight, y, batch, additional⟩

/-- One call of `__next__` at cursor `t`: yield `__get_item__(t)` and advance,
or (at the end) reset the cursor to 0 and raise `StopIteration`. `fail` is an
exception escaping `__get_item__` (the cursor is then left unchanged). -/
inductive StepOut where
  | yield (snap : Snapshot)
  | stop
  | fail
  deriving DecidableEq, Repr

def Signal.nextStep (s : Signal) (t : Nat) : StepOut × Nat :=
  if t < s.features.length then
    match s.get_item (t : Int) with
    | some snap => (.yield snap, t + 1)
    | none => (.fail, t)
  else (.stop, 0)

/-- Drive `__next__` from cursor `t` until `StopIteration` (or an escaping
exception), collecting the yielded snapshots and the final cursor. `fuel`
bounds the number of calls; `snapshot_count + 1` suffices from cursor 0. -/
def Signal.drive (s : Signal) : Nat → Nat → List Snapshot × Nat
  | 0, t => ([], t)
  | fuel + 1, t =>
    match s.nextStep t with
    | (.yield snap, t') =>
      let rest := s.drive fuel t'
      (snap :: rest.1, rest.2)
    | (.stop, t') => ([], t')
    | (.fail, t') => ([], t')

/-- One full traversal of the iteration protocol: `__iter__` (cursor := 0),
then `__next__` until `StopIteration`. Returns the yielded snapshots and the
cursor left behind. -/
def Signal.iterateOnce (s : Signal) : List Snapshot × Nat :=
  s.drive (s.snapshot_count + 1) 0

/-- The length-consistency condition in the words of the specification: the
five core sequences all have one common length and every additional-feature
sequence has that length too. -/
def lengthsConsistent (edge_indices edge_weights features targets batches :
    List (Option NDArray))
    (kwargs : List (String × List NDArray)) : Prop :=
  edge_indices.length = features.length ∧
  edge_weights.length = features.length ∧
  targets.length = features.length ∧
  batches.length = features.length ∧
  ∀ kv ∈ kwargs, kv.2.length = features.length

/-- Placeholder snapshot for `Option.getD`; never observed on a valid
in-range access. -/
def defaultSnapshot : Snapshot := ⟨none, none, none, none, none, []⟩

/-- The snapshot `__get_item__` yields at an in-range index of a valid
signal. -/
def Signal.itemAt (s : Signal) (t : Nat) : Snapshot :=
  (s.get_item (t : Int)).getD defaultSnapshot

/-! ### Concrete signals used by the witnesses

`exSignal` follows the scenario of the specification: two snapshots, a
missing edge set at time 0, integer targets and one integer additional
feature `weight_extra`. `exSignalB` has a boolean target and a boolean
additional feature. -/

def exEI : List (Option NDArray) := [none, some (.intArr [2, 2] [0, 1, 1, 0])]

def exEW : List (Option NDArray) := [none, some (.floatArr [2] [1, 2])]

def exF : List (Option NDArray) :=
  [some (.floatArr [1, 1] [1]), some (.floatArr [1, 1] [2])]

def exTG : List (Option NDArray) :=
  [some (.intArr [1] [0]), some (.intArr [1] [1])]

def exB : List (Option NDArray) :=
  [some (.intArr [1] [0]), some (.intArr [1] [0])]

def exKW : List (String × List NDArray) :=
  [("weight_extra", [.intArr [1] [9], .intArr [1] [10]])]

def exSignal : Signal := ⟨exEI, exEW, exF, exTG, exB, exKW⟩

def exbTG : List (Option NDArray) := [some (.boolArr [1] [true])]

def exbKW : List (String × List NDArray) := [("flag", [.boolArr [1] [false]])]

def exSignalB : Signal := ⟨[none], [none], [none], exbTG, [none], exbKW⟩

/-! ### Lemmas about Python list indexing -/

theorem pyGet_nat {α : Type} (l : List α) (t : Nat) : pyGet l (t : Int) = l[t]? := by
  simp [pyGet]

theorem pyGet_wrap {α : Type} (l : List α) (i : Int) (h1 : -(l.length : Int) ≤ i)
    (h2 : i < 0) : pyGet l i = pyGet l (i + l.length) := by
  have hni : ¬ (0 : Int) ≤ i := by omega
  have hyes : (0 : Int) ≤ i + l.length := by omega
  rw [pyGet, pyGet, if_neg hni, if_pos hyes, if_pos hyes]

theorem pyGet_oob {α : Type} (l : List α) (i : Int)
    (h : i < -(l.length : Int) ∨ (l.length : Int) ≤ i) : pyGet l i = none := by
  rcases h with h | h
  · rw [pyGet, if_neg (by omega), if_neg (by omega)]
  · rw [pyGet, if_pos (by omega)]
    exact List.getElem?_eq_none_iff.mpr (by omega)

theorem getElem?_of_lt {α : Type} (l : List α) (n : Nat) (d : α)
    (h : n < l.length) : l[n]? = some (l.getD n d) := by
  cases hq : l[n]? with
  | none =>
    rw [List.getElem?_eq_none_iff] at hq
    omega
  | some a =>
    rw [List.getD_eq_getElem?_getD, hq]
    rfl

theorem getD_of_getElem? {α : Type} (l : List α) (n : Nat) (d a : α)
    (h : l[n]? = some a) : l.getD n d = a := by
  rw [List.getD_eq_getElem?_getD, h]
  rfl

/-! ### Construction and validity -/

theorem construct_some (ei ew f tg b : List (Option NDArray))
    (kw : List (String × List NDArray)) (s : Signal)
    (h : Signal.construct ei ew f tg b kw = some s) :
    s = ⟨ei, ew, f, tg, b, kw⟩ ∧ s.check_temporal_consistency = true := by
  simp only [Signal.construct] at h
  by_cases hc : (Signal.mk ei ew f tg b kw).check_temporal_consistency = true
  · rw [if_pos hc] at h
    cases h
    exact ⟨rfl, hc⟩
  · rw [if_neg hc] at h
    cases h

theorem check_lengths (s : Signal) (hv : s.check_temporal_consistency = true) :
    s.targets.length = s.features.length ∧
    s.edge_indices.length = s.features.length ∧
    s.edge_weights.length = s.features.length ∧
    s.batches.length = s.features.length ∧
    ∀ kv ∈ s.additional_features, kv.2.length = s.features.length := by
  rw [Signal.check_temporal_consistency] at hv
  simp only [Bool.and_eq_true, beq_iff_eq, List.all_eq_true] at hv
  obtain ⟨⟨⟨⟨h1, h2⟩, h3⟩, h4⟩, h5⟩ := hv
  refine ⟨by omega, by omega, by omega, by omega, fun kv hkv => ?_⟩
  have := h5 kv hkv
  omega

/-! ### Evaluating the per-field accessors at an in-range index -/

theorem get_feature_eq (s : Signal) (t : Nat) (ht : t < s.features.length) :
    s.get_feature (t : Int) =
      some ((s.features.getD t none).map NDArray.toFloatTensor) := by
  rw [Signal.get_feature, pyGet_nat, getElem?_of_lt s.features t none ht]
  cases s.features.getD t none <;> rfl

theorem get_edge_index_eq (s : Signal) (t : Nat)
    (ht : t < s.edge_indices.length) :
    s.get_edge_index (t : Int) =
      some ((s.edge_indices.getD t none).map NDArray.toLongTensor) := by
  rw [Signal.get_edge_index, pyGet_nat, getElem?_of_lt s.edge_indices t none ht]
  cases s.edge_indices.getD t none <;> rfl

theorem get_edge_weight_eq (s : Signal) (t : Nat)
    (ht : t < s.edge_weights.length) :
    s.get_edge_weight (t : Int) =
      some ((s.edge_weights.getD t none).map NDArray.toFloatTensor) := by
  rw [Signal.get_edge_weight, pyGet_nat, getElem?_of_lt s.edge_weights t none ht]
  cases s.edge_weights.getD t none <;> rfl

theorem get_batch_index_eq (s : Signal) (t : Nat)
    (ht : t < s.batches.length) :
    s.get_batch_index (t : Int) =
      some ((s.batches.getD t none).map NDArray.toLongTensor) := by
  rw [Signal.get_batch_index, pyGet_nat, getElem?_of_lt s.batches t none ht]
  cases s.batches.getD t none <;> rfl

theorem get_target_eq (s : Signal) (t : Nat) (ht : t < s.targets.length) :
    s.get_target (t : Int) =
      some ((s.targets.getD t none).bind Signal.kindConvert) := by
  rw [Signal.get_target, pyGet_nat, getElem?_of_lt s.targets t none ht]
  cases s.targets.getD t none <;> rfl

theorem convertAdditional_eq (t : Nat) (kw : List (String × List NDArray))
    (h : ∀ kv ∈ kw, t < kv.2.length) :
    Signal.convertAdditional (t : Int) kw =
      some (kw.map fun kv =>
        (kv.1, Signal.kindConvert (kv.2.getD t (NDArray.intArr [] [])))) := by
  induction kw with
  | nil => rfl
  | cons kv rest ih =>
    have h1 : t < kv.2.length := h kv (List.mem_cons_self kv rest)
    have hga : Signal.get_additional_feature kv.2 (t : Int) =
        some (Signal.kindConvert (kv.2.getD t (NDArray.intArr [] []))) := by
      rw [Signal.get_additional_feature, pyGet_nat,
        getElem?_of_lt kv.2 t (NDArray.intArr [] []) h1]
      rfl
    have ih2 := ih (fun x hx => h x (List.mem_cons_of_mem kv hx))
    simp [Signal.convertAdditional, hga, ih2]

theorem kindConvert_int (sh : List Nat) (d : List Int) :
    Signal.kindConvert (NDArray.intArr sh d) = some (Tensor.long sh d) := rfl

theorem kindConvert_float (sh : List Nat) (d : List Rat) :
    Signal.kindConvert (NDArray.floatArr sh d) = some (Tensor.float sh d) := rfl

theorem kindConvert_bool (sh : List Nat) (d : List Bool) :
    Signal.kindConvert (NDArray.boolArr sh d) = none := rfl

/-- What `__get_item__` returns at an in-range index of a valid signal, field
by field. -/
theorem get_item_eq (s : Signal) (hv : s.check_temporal_consistency = true)
    (t : Nat) (ht : t < s.snapshot_count) :
    s.get_item (t : Int) = some
      { x := (s.features.getD t none).map NDArray.toFloatTensor
        edge_index := (s.edge_indices.getD t none).map NDArray.toLongTensor
        edge_attr := (s.edge_weights.getD t none).map NDArray.toFloatTensor
        y := (s.targets.getD t none).bind Signal.kindConvert
        batch := (s.batches.getD t none).map NDArray.toLongTensor
        additional := s.additional_features.map fun kv =>
          (kv.1, Signal.kindConvert (kv.2.getD t (NDArray.intArr [] []))) } := by
  obtain ⟨hT, hEI, hEW, hB, hK⟩ := check_lengths s hv
  have hsc : s.snapshot_count = s.features.length := rfl
  have e1 := get_feature_eq s t (by omega)
  have e2 := get_edge_index_eq s t (by omega)
  have e3 := get_edge_weight_eq s t (by omega)
  have e4 := get_batch_index_eq s t (by omega)
  have e5 := get_target_eq s t (by omega)
  have e6 : s.get_additional_features (t : Int) =
      some (s.additional_features.map fun kv =>
        (kv.1, Signal.kindConvert (kv.2.getD t (NDArray.intArr [] [])))) := by
    rw [Signal.get_additional_features]
    exact convertAdditional_eq t s.additional_features
      (fun kv hkv => by have := hK kv hkv; omega)
  rw [Signal.get_item]
  simp [e1, e2, e3, e4, e5, e6]

theorem get_item_some (s : Signal) (hv : s.check_temporal_consistency = true)
    (t : Nat) (ht : t < s.snapshot_count) :
    s.get_item (t : Int) = some (s.itemAt t) := by
  rw [Signal.itemAt, get_item_eq s hv t ht]
  rfl

theorem item_oob (s : Signal) (_hv : s.check_temporal_consistency = true)
    (t : Int)
    (ht : t < -(s.snapshot_count : Int) ∨ (s.snapshot_count : Int) ≤ t) :
    s.get_item t = none := by
  have hsc : s.snapshot_count = s.features.length := rfl
  have hp : pyGet s.features t = none := pyGet_oob s.features t (by omega)
  have hf : s.get_feature t = none := by
    rw [Signal.get_feature, hp]
    rfl
  rw [Signal.get_item]
  simp [hf]

/-! ### The iteration protocol -/

theorem drive_succ (s : Signal) (fuel t : Nat) :
    s.drive (fuel + 1) t =
      match s.nextStep t with
      | (.yield snap, u) => (snap :: (s.drive fuel u).1, (s.drive fuel u).2)
      | (.stop, u) => ([], u)
      | (.fail, u) => ([], u) := rfl

theorem drive_eq (s : Signal) (hv : s.check_temporal_consistency = true) :
    ∀ d t, t + d = s.snapshot_count →
      s.drive (d + 1) t = ((List.range' t d).map s.itemAt, 0) := by
  intro d
  induction d with
  | zero =>
    intro t h
    have hsc : s.snapshot_count = s.features.length := rfl
    have hns : s.nextStep t = (.stop, 0) := by
      rw [Signal.nextStep, if_neg (by omega)]
    simp [Signal.drive, hns]
  | succ d ih =>
    intro t h
    have hsc : s.snapshot_count = s.features.length := rfl
    have hlt : t < s.features.length := by omega
    have hgi := get_item_some s hv t (by omega)
    have hns : s.nextStep t = (.yield (s.itemAt t), t + 1) := by
      rw [Signal.nextStep, if_pos hlt, hgi]
    have hrest := ih (t + 1) (by omega)
    rw [drive_succ, hns]
    show (s.itemAt t :: (s.drive (d + 1) (t + 1)).1,
      (s.drive (d + 1) (t + 1)).2) = _
    rw [hrest, List.range'_succ]
    rfl

theorem iterateOnce_eq (s : Signal)
    (hv : s.check_temporal_consistency = true) :
    s.iterateOnce = ((List.range s.snapshot_count).map s.itemAt, 0) := by
  rw [Signal.iterateOnce, drive_eq s hv s.snapshot_count 0 (by omega),
    List.range_eq_range']

/-! ### Negative indices wrap, as in Python -/

theorem convertAdditional_wrap (T : Nat) (t : Int)
    (kw : List (String × List NDArray))
    (hlen : ∀ kv ∈ kw, kv.2.length = T) (h1 : -(T : Int) ≤ t) (h2 : t < 0) :
    Signal.convertAdditional t kw =
      Signal.convertAdditional ((T : Int) + t) kw := by
  induction kw with
  | nil => rfl
  | cons kv rest ih =>
    have hl : kv.2.length = T := hlen kv (List.mem_cons_self kv rest)
    have e : Signal.get_additional_feature kv.2 t =
        Signal.get_additional_feature kv.2 ((T : Int) + t) := by
      rw [Signal.get_additional_feature, Signal.get_additional_feature,
        pyGet_wrap kv.2 t (by omega) h2,
        show t + (kv.2.length : Int) = (T : Int) + t by omega]
    simp [Signal.convertAdditional, e,
      ih (fun x hx => hlen x (List.mem_cons_of_mem kv hx))]

theorem get_item_wrap (s : Signal) (hv : s.check_temporal_consistency = true)
    (t : Int) (h1 : -(s.snapshot_count : Int) ≤ t) (h2 : t < 0) :
    s.get_item t = s.get_item ((s.snapshot_count : Int) + t) := by
  obtain ⟨hT, hEI, hEW, hB, hK⟩ := check_lengths s hv
  have hsc : s.snapshot_count = s.features.length := rfl
  have e1 : s.get_feature t = s.get_feature ((s.snapshot_count : Int) + t) := by
    rw [Signal.get_feature, Signal.get_feature,
      pyGet_wrap s.features t (by omega) h2,
      show t + (s.features.length : Int) = (s.snapshot_count : Int) + t by omega]
  have e2 : s.get_edge_index t =
      s.get_edge_index ((s.snapshot_count : Int) + t) := by
    rw [Signal.get_edge_index, Signal.get_edge_index,
      pyGet_wrap s.edge_indices t (by omega) h2,
      show t + (s.edge_indices.length : Int) = (s.snapshot_count : Int) + t
        by omega]
  have e3 : s.get_edge_weight t =
      s.get_edge_weight ((s.snapshot_count : Int) + t) := by
    rw [Signal.get_edge_weight, Signal.get_edge_weight,
      pyGet_wrap s.edge_weights t (by omega) h2,
      show t + (s.edge_weights.length : Int) = (s.snapshot_count : Int) + t
        by omega]
  have e4 : s.get_batch_index t =
      s.get_batch_index ((s.snapshot_count : Int) + t) := by
    rw [Signal.get_batch_index, Signal.get_batch_index,
      pyGet_wrap s.batches t (by omega) h2,
      show t + (s.batches.length : Int) = (s.snapshot_count : Int) + t
        by omega]
  have e5 : s.get_target t = s.get_target ((s.snapshot_count : Int) + t) := by
    rw [Signal.get_target, Signal.get_target,
      pyGet_wrap s.targets t (by omega) h2,
      show t + (s.targets.length : Int) = (s.snapshot_count : Int) + t
        by omega]
  have e6 : s.get_additional_features t =
      s.get_additional_features ((s.snapshot_count : Int) + t) := by
    rw [Signal.get_additional_features, Signal.get_additional_features]
    exact convertAdditional_wrap s.snapshot_count t s.additional_features
      (fun kv hkv => by have := hK kv hkv; omega) h1 h2
  rw [Signal.get_item, Signal.get_item]
  simp only [e1, e2, e3, e4, e5, e6]

/-! ## The claims -/

/-- C1: for every construction where the five core sequences are not all of
equal length, or where some additional-feature sequence differs from the
common core length, the consistency assertion fails
(`InconsistentLengthError`) and no object is produced. -/
theorem c1_inconsistent_lengths_fail (ei ew f tg b : List (Option NDArray))
    (kw : List (String × List NDArray))
    (h : ¬ lengthsConsistent ei ew f tg b kw) :
    Signal.construct ei ew f tg b kw = none := by
  by_cases hc : (Signal.mk ei ew f tg b kw).check_temporal_consistency = true
  · exfalso
    obtain ⟨hT, hEI, hEW, hB, hK⟩ := check_lengths _ hc
    exact h ⟨hEI, hEW, hT, hB, hK⟩
  · simp only [Signal.construct]
    rw [if_neg hc]

/-- Witness for C1: three feature entries against two target entries. -/
theorem c1_witness :
    ¬ lengthsConsistent [none, none, none] [none, none, none]
      [some (NDArray.intArr [1] [1]), none, none] [none, none]
      [none, none, none] [] ∧
    Signal.construct [none, none, none] [none, none, none]
      [some (NDArray.intArr [1] [1]), none, none] [none, none]
      [none, none, none] [] = none :=
  ⟨by unfold lengthsConsistent; decide,
   c1_inconsistent_lengths_fail _ _ _ _ _ _
     (by unfold lengthsConsistent; decide)⟩

/-- C2: for every valid construction, `snapshot_count` equals the common
length of the five input sequences, and `__get_item__` returns a snapshot
for every integer `t` with `0 ≤ t < snapshot_count`. -/
theorem c2_count_and_access (ei ew f tg b : List (Option NDArray))
    (kw : List (String × List NDArray)) (s : Signal)
    (h : Signal.construct ei ew f tg b kw = some s) :
    s.snapshot_count = f.length ∧
    ei.length = f.length ∧ ew.length = f.length ∧ tg.length = f.length ∧
    b.length = f.length ∧
    ∀ t : Int, 0 ≤ t → t < (s.snapshot_count : Int) →
      ∃ snap, s.get_item t = some snap := by
  obtain ⟨hs, hv⟩ := construct_some ei ew f tg b kw s h
  obtain ⟨hT, hEI, hEW, hB, hK⟩ := check_lengths s hv
  subst hs
  refine ⟨rfl, hEI, hEW, hT, hB, fun t h0 ht => ?_⟩
  have hnat : ((t.toNat : Nat) : Int) = t := Int.toNat_of_nonneg h0
  have hgi := get_item_eq _ hv t.toNat (by omega)
  rw [hnat] at hgi
  exact ⟨_, hgi⟩

/-- Witness for C2 at the two-snapshot example signal. -/
theorem c2_witness :
    exSignal.snapshot_count = exF.length ∧
    ∃ snap, exSignal.get_item 0 = some snap := by
  obtain ⟨h1, _, _, _, _, h6⟩ :=
    c2_count_and_access exEI exEW exF exTG exB exKW exSignal (by decide)
  exact ⟨h1, h6 0 (by decide) (by decide)⟩

/-- C3 is false as stated: on a validly constructed two-snapshot signal,
`__get_item__(-1)` does not fail — Python list indexing wraps the negative
index. -/
theorem c3_counterexample :
    Signal.construct exEI exEW exF exTG exB exKW = some exSignal ∧
    (-1 : Int) < 0 ∧ exSignal.get_item (-1) ≠ none := by
  refine ⟨by decide, by decide, by decide⟩

/-- C3 (amended): `__get_item__(t)` fails with an `IndexOutOfRangeError`
exactly on the indices Python rejects, namely every `t < -snapshot_count`
and every `t ≥ snapshot_count`; a negative `t` in `[-snapshot_count, 0)`
wraps instead of failing. -/
theorem c3_amended_out_of_range (ei ew f tg b : List (Option NDArray))
    (kw : List (String × List NDArray)) (s : Signal)
    (h : Signal.construct ei ew f tg b kw = some s) (t : Int)
    (ht : t < -(s.snapshot_count : Int) ∨ (s.snapshot_count : Int) ≤ t) :
    s.get_item t = none := by
  obtain ⟨hs, hv⟩ := construct_some ei ew f tg b kw s h
  exact item_oob s hv t ht

/-- Witness for the amended C3: both overflow and deep-negative indices
fail on the example signal. -/
theorem c3_witness :
    exSignal.get_item 2 = none ∧ exSignal.get_item (-3) = none :=
  ⟨c3_amended_out_of_range exEI exEW exF exTG exB exKW exSignal (by decide) 2
    (by decide),
   c3_amended_out_of_range exEI exEW exF exTG exB exKW exSignal (by decide)
    (-3) (by decide)⟩

/-- C4: at an in-range index, an absent (`None`) core element passes through
unchanged — the corresponding snapshot field is absent, with no empty-graph
or default substitution, for each of the five core fields. -/
theorem c4_absent_passthrough (ei ew f tg b : List (Option NDArray))
    (kw : List (String × List NDArray)) (s : Signal)
    (h : Signal.construct ei ew f tg b kw = some s) (t : Int)
    (h0 : 0 ≤ t) (ht : t < (s.snapshot_count : Int)) :
    (s.edge_indices[t.toNat]? = some none →
      (s.get_item t).map Snapshot.edge_index = some none) ∧
    (s.edge_weights[t.toNat]? = some none →
      (s.get_item t).map Snapshot.edge_attr = some none) ∧
    (s.features[t.toNat]? = some none →
      (s.get_item t).map Snapshot.x = some none) ∧
    (s.targets[t.toNat]? = some none →
      (s.get_item t).map Snapshot.y = some none) ∧
    (s.batches[t.toNat]? = some none →
      (s.get_item t).map Snapshot.batch = some none) := by
  obtain ⟨hs, hv⟩ := construct_some ei ew f tg b kw s h
  have hnat : ((t.toNat : Nat) : Int) = t := Int.toNat_of_nonneg h0
  have hgi := get_item_eq s hv t.toNat (by omega)
  rw [hnat] at hgi
  refine ⟨fun hx => ?_, fun hx => ?_, fun hx => ?_, fun hx => ?_,
    fun hx => ?_⟩
  all_goals rw [hgi]
  all_goals simp [hx]

/-- Witness for C4: at time 0 of the example signal both the edge set and
the edge weights are absent and stay absent in the snapshot. -/
theorem c4_witness :
    ((exSignal.get_item 0).map Snapshot.edge_index = some none) ∧
    ((exSignal.get_item 0).map Snapshot.edge_attr = some none) := by
  obtain ⟨h1, h2, _, _, _⟩ := c4_absent_passthrough exEI exEW exF exTG exB
    exKW exSignal (by decide) 0 (by decide) (by decide)
  exact ⟨h1 (by decide), h2 (by decide)⟩

/-- C5: targets branch on the array kind — an integer-kind target array
becomes an integer tensor with the same values in the same layout, a
floating-kind one becomes a floating tensor; edge indices and batch vectors
always convert through `LongTensor` and edge weights and features always
through `FloatTensor`, with no dtype branching. -/
theorem c5_dtype_conversion (ei ew f tg b : List (Option NDArray))
    (kw : List (String × List NDArray)) (s : Signal)
    (h : Signal.construct ei ew f tg b kw = some s) (t : Int)
    (h0 : 0 ≤ t) (ht : t < (s.snapshot_count : Int)) :
    (∀ sh d, s.targets[t.toNat]? = some (some (NDArray.intArr sh d)) →
      (s.get_item t).map Snapshot.y = some (some (Tensor.long sh d))) ∧
    (∀ sh d, s.targets[t.toNat]? = some (some (NDArray.floatArr sh d)) →
      (s.get_item t).map Snapshot.y = some (some (Tensor.float sh d))) ∧
    (∀ arr, s.edge_indices[t.toNat]? = some (some arr) →
      (s.get_item t).map Snapshot.edge_index = some (some arr.toLongTensor) ∧
      arr.toLongTensor.isLong = true) ∧
    (∀ arr, s.batches[t.toNat]? = some (some arr) →
      (s.get_item t).map Snapshot.batch = some (some arr.toLongTensor) ∧
      arr.toLongTensor.isLong = true) ∧
    (∀ arr, s.edge_weights[t.toNat]? = some (some arr) →
      (s.get_item t).map Snapshot.edge_attr = some (some arr.toFloatTensor) ∧
      arr.toFloatTensor.isFloat = true) ∧
    (∀ arr, s.features[t.toNat]? = some (some arr) →
      (s.get_item t).map Snapshot.x = some (some arr.toFloatTensor) ∧
      arr.toFloatTensor.isFloat = true) := by
  obtain ⟨hs, hv⟩ := construct_some ei ew f tg b kw s h
  have hnat : ((t.toNat : Nat) : Int) = t := Int.toNat_of_nonneg h0
  have hgi := get_item_eq s hv t.toNat (by omega)
  rw [hnat] at hgi
  have hlong : ∀ arr : NDArray, arr.toLongTensor.isLong = true := by
    intro arr
    cases arr <;> rfl
  have hfloat : ∀ arr : NDArray, arr.toFloatTensor.isFloat = true := by
    intro arr
    cases arr <;> rfl
  refine ⟨fun sh d hx => ?_, fun sh d hx => ?_,
    fun arr hx => ⟨?_, hlong arr⟩, fun arr hx => ⟨?_, hlong arr⟩,
    fun arr hx => ⟨?_, hfloat arr⟩, fun arr hx => ⟨?_, hfloat arr⟩⟩
  all_goals rw [hgi]
  · simp [hx, kindConvert_int]
  · simp [hx, kindConvert_float]
  · simp [hx]
  · simp [hx]
  · simp [hx]
  · simp [hx]

/-- Witness for C5: integer target `[1]` becomes the integer tensor `[1]`,
and the present edge set converts through `LongTensor`. -/
theorem c5_witness :
    ((exSignal.get_item 1).map Snapshot.y =
      some (some (Tensor.long [1] [1]))) ∧
    ((exSignal.get_item 1).map Snapshot.edge_index =
      some (some ((NDArray.intArr [2, 2] [0, 1, 1, 0]).toLongTensor))) := by
  obtain ⟨h1, _, h3, _, _, _⟩ := c5_dtype_conversion exEI exEW exF exTG exB
    exKW exSignal (by decide) 1 (by decide) (by decide)
  exact ⟨h1 [1] [1] (by decide),
    (h3 (NDArray.intArr [2, 2] [0, 1, 1, 0]) (by decide)).1⟩

/-- C6: one full traversal of the iteration protocol yields exactly
`snapshot_count` snapshots in index order, each equal to `__get_item__` at
its index; exhaustion leaves the cursor at 0, so a further full traversal
from that cursor yields the identical snapshots again. -/
theorem c6_iteration (ei ew f tg b : List (Option NDArray))
    (kw : List (String × List NDArray)) (s : Signal)
    (h : Signal.construct ei ew f tg b kw = some s) :
    s.iterateOnce.1.length = s.snapshot_count ∧
    (∀ t : Nat, t < s.snapshot_count →
      s.iterateOnce.1[t]? = s.get_item (t : Int)) ∧
    s.iterateOnce.2 = 0 ∧
    s.drive (s.snapshot_count + 1) s.iterateOnce.2 = s.iterateOnce := by
  obtain ⟨hs, hv⟩ := construct_some ei ew f tg b kw s h
  have hiter := iterateOnce_eq s hv
  refine ⟨?_, ?_, ?_, ?_⟩
  · rw [hiter]
    simp
  · intro t ht
    rw [hiter]
    show ((List.range s.snapshot_count).map s.itemAt)[t]? = _
    rw [List.getElem?_map, List.getElem?_range ht]
    exact (get_item_some s hv t ht).symm
  · rw [hiter]
  · rw [hiter]
    exact hiter

/-- Witness for C6 on the two-snapshot example signal. -/
theorem c6_witness :
    exSignal.iterateOnce.1.length = exSignal.snapshot_count ∧
    exSignal.iterateOnce.1[0]? = exSignal.get_item 0 ∧
    exSignal.iterateOnce.2 = 0 := by
  obtain ⟨h1, h2, h3, _⟩ := c6_iteration exEI exEW exF exTG exB exKW exSignal
    (by decide)
  exact ⟨h1, h2 0 (by decide), h3⟩

/-- C7: a non-absent core element whose dtype kind fits its role in the data
model (integer for edge indices and batches, integer or floating for
weights, features and targets) converts to a tensor with the same shape and
numerically equal values. -/
theorem c7_roundtrip (ei ew f tg b : List (Option NDArray))
    (kw : List (String × List NDArray)) (s : Signal)
    (h : Signal.construct ei ew f tg b kw = some s) (t : Int)
    (h0 : 0 ≤ t) (ht : t < (s.snapshot_count : Int)) :
    (∀ arr, s.edge_indices[t.toNat]? = some (some arr) → arr.kind = 'i' →
      ∃ tsr, (s.get_item t).map Snapshot.edge_index = some (some tsr) ∧
        tsr.shape = arr.shape ∧ tsr.values = arr.values) ∧
    (∀ arr, s.batches[t.toNat]? = some (some arr) → arr.kind = 'i' →
      ∃ tsr, (s.get_item t).map Snapshot.batch = some (some tsr) ∧
        tsr.shape = arr.shape ∧ tsr.values = arr.values) ∧
    (∀ arr, s.edge_weights[t.toNat]? = some (some arr) →
      arr.kind = 'i' ∨ arr.kind = 'f' →
      ∃ tsr, (s.get_item t).map Snapshot.edge_attr = some (some tsr) ∧
        tsr.shape = arr.shape ∧ tsr.values = arr.values) ∧
    (∀ arr, s.features[t.toNat]? = some (some arr) →
      arr.kind = 'i' ∨ arr.kind = 'f' →
      ∃ tsr, (s.get_item t).map Snapshot.x = some (some tsr) ∧
        tsr.shape = arr.shape ∧ tsr.values = arr.values) ∧
    (∀ arr, s.targets[t.toNat]? = some (some arr) →
      arr.kind = 'i' ∨ arr.kind = 'f' →
      ∃ tsr, (s.get_item t).map Snapshot.y = some (some tsr) ∧
        tsr.shape = arr.shape ∧ tsr.values = arr.values) := by
  obtain ⟨hs, hv⟩ := construct_some ei ew f tg b kw s h
  have hnat : ((t.toNat : Nat) : Int) = t := Int.toNat_of_nonneg h0
  have hgi := get_item_eq s hv t.toNat (by omega)
  rw [hnat] at hgi
  have hlongrt : ∀ arr : NDArray, arr.kind = 'i' →
      arr.toLongTensor.shape = arr.shape ∧
      arr.toLongTensor.values = arr.values := by
    intro arr hk
    cases arr with
    | intArr sh d => exact ⟨rfl, rfl⟩
    | floatArr sh d => simp [NDArray.kind] at hk
    | boolArr sh d => simp [NDArray.kind] at hk
  have hfloatrt : ∀ arr : NDArray, arr.kind = 'i' ∨ arr.kind = 'f' →
      arr.toFloatTensor.shape = arr.shape ∧
      arr.toFloatTensor.values = arr.values := by
    intro arr hk
    cases arr with
    | intArr sh d => exact ⟨rfl, rfl⟩
    | floatArr sh d => exact ⟨rfl, rfl⟩
    | boolArr sh d => rcases hk with hk | hk <;> simp [NDArray.kind] at hk
  have hkc : ∀ arr : NDArray, arr.kind = 'i' ∨ arr.kind = 'f' →
      ∃ tsr, Signal.kindConvert arr = some tsr ∧
        tsr.shape = arr.shape ∧ tsr.values = arr.values := by
    intro arr hk
    cases arr with
    | intArr sh d => exact ⟨.long sh d, rfl, rfl, rfl⟩
    | floatArr sh d => exact ⟨.float sh d, rfl, rfl, rfl⟩
    | boolArr sh d => rcases hk with hk | hk <;> simp [NDArray.kind] at hk
  refine ⟨fun arr hx hk => ?_, fun arr hx hk => ?_, fun arr hx hk => ?_,
    fun arr hx hk => ?_, fun arr hx hk => ?_⟩
  · refine ⟨arr.toLongTensor, ?_, (hlongrt arr hk).1, (hlongrt arr hk).2⟩
    rw [hgi]
    simp [hx]
  · refine ⟨arr.toLongTensor, ?_, (hlongrt arr hk).1, (hlongrt arr hk).2⟩
    rw [hgi]
    simp [hx]
  · refine ⟨arr.toFloatTensor, ?_, (hfloatrt arr hk).1, (hfloatrt arr hk).2⟩
    rw [hgi]
    simp [hx]
  · refine ⟨arr.toFloatTensor, ?_, (hfloatrt arr hk).1, (hfloatrt arr hk).2⟩
    rw [hgi]
    simp [hx]
  · obtain ⟨tsr, hc, hsh, hvals⟩ := hkc arr hk
    refine ⟨tsr, ?_, hsh, hvals⟩
    rw [hgi]
    simp [hx, hc]

/-- Witness for C7: the edge set at time 1 keeps its shape and values. -/
theorem c7_witness :
    ∃ tsr, (exSignal.get_item 1).map Snapshot.edge_index =
      some (some tsr) ∧
      tsr.shape = (NDArray.intArr [2, 2] [0, 1, 1, 0]).shape ∧
      tsr.values = (NDArray.intArr [2, 2] [0, 1, 1, 0]).values := by
  obtain ⟨h1, _, _, _, _⟩ := c7_roundtrip exEI exEW exF exTG exB exKW
    exSignal (by decide) 1 (by decide) (by decide)
  exact h1 (NDArray.intArr [2, 2] [0, 1, 1, 0]) (by decide) (by decide)

/-- C8: the snapshot's additional-feature mapping has exactly the recorded
keys, in kwarg order, each value being that key's element at `t` converted
with the same kind branch as targets: integer kind to an integer tensor,
floating kind to a floating tensor. -/
theorem c8_additional_features (ei ew f tg b : List (Option NDArray))
    (kw : List (String × List NDArray)) (s : Signal)
    (h : Signal.construct ei ew f tg b kw = some s) (t : Int)
    (h0 : 0 ≤ t) (ht : t < (s.snapshot_count : Int)) :
    ∃ snap, s.get_item t = some snap ∧
      snap.additional.map Prod.fst = s.additional_features.map Prod.fst ∧
      (∀ k seq, (k, seq) ∈ s.additional_features →
        ∀ arr, seq[t.toNat]? = some arr →
          (k, Signal.kindConvert arr) ∈ snap.additional) ∧
      (∀ sh d, Signal.kindConvert (NDArray.intArr sh d) =
        some (Tensor.long sh d)) ∧
      (∀ sh d, Signal.kindConvert (NDArray.floatArr sh d) =
        some (Tensor.float sh d)) := by
  obtain ⟨hs, hv⟩ := construct_some ei ew f tg b kw s h
  have hnat : ((t.toNat : Nat) : Int) = t := Int.toNat_of_nonneg h0
  have hgi := get_item_eq s hv t.toNat (by omega)
  rw [hnat] at hgi
  refine ⟨_, hgi, ?_, ?_, fun sh d => kindConvert_int sh d,
    fun sh d => kindConvert_float sh d⟩
  · rw [List.map_map]
    rfl
  · intro k seq hmem arr harr
    have hmem2 : (k, Signal.kindConvert
        (seq.getD t.toNat (NDArray.intArr [] []))) ∈
        s.additional_features.map (fun kv =>
          (kv.1, Signal.kindConvert
            (kv.2.getD t.toNat (NDArray.intArr [] [])))) :=
      List.mem_map_of_mem _ hmem
    rw [getD_of_getElem? seq t.toNat _ _ harr] at hmem2
    exact hmem2

/-- Witness for C8: `weight_extra = [9]` of integer kind appears at key
`weight_extra` in the snapshot at time 0. -/
theorem c8_witness :
    ∃ snap, exSignal.get_item 0 = some snap ∧
      snap.additional.map Prod.fst = ["weight_extra"] ∧
      ("weight_extra", Signal.kindConvert (NDArray.intArr [1] [9])) ∈
        snap.additional := by
  obtain ⟨snap, h1, h2, h3, _, _⟩ := c8_additional_features exEI exEW exF
    exTG exB exKW exSignal (by decide) 0 (by decide) (by decide)
  refine ⟨snap, h1, ?_, ?_⟩
  · rw [h2]
    rfl
  · exact h3 "weight_extra" [NDArray.intArr [1] [9], NDArray.intArr [1] [10]]
      (by decide) (NDArray.intArr [1] [9]) (by decide)

/-- C9: a non-absent target or additional-feature array of boolean kind
raises no error and produces no tensor — the snapshot field is silently
absent. -/
theorem c9_silent_none (ei ew f tg b : List (Option NDArray))
    (kw : List (String × List NDArray)) (s : Signal)
    (h : Signal.construct ei ew f tg b kw = some s) (t : Int)
    (h0 : 0 ≤ t) (ht : t < (s.snapshot_count : Int)) :
    (∀ sh d, s.targets[t.toNat]? = some (some (NDArray.boolArr sh d)) →
      (s.get_item t).map Snapshot.y = some none) ∧
    (∀ k seq sh d, (k, seq) ∈ s.additional_features →
      seq[t.toNat]? = some (NDArray.boolArr sh d) →
      ∃ snap, s.get_item t = some snap ∧
        (k, (none : Option Tensor)) ∈ snap.additional) := by
  obtain ⟨hs, hv⟩ := construct_some ei ew f tg b kw s h
  have hnat : ((t.toNat : Nat) : Int) = t := Int.toNat_of_nonneg h0
  have hgi := get_item_eq s hv t.toNat (by omega)
  rw [hnat] at hgi
  constructor
  · intro sh d hx
    rw [hgi]
    simp [hx, kindConvert_bool]
  · intro k seq sh d hmem harr
    refine ⟨_, hgi, ?_⟩
    have hmem2 : (k, Signal.kindConvert
        (seq.getD t.toNat (NDArray.intArr [] []))) ∈
        s.additional_features.map (fun kv =>
          (kv.1, Signal.kindConvert
            (kv.2.getD t.toNat (NDArray.intArr [] [])))) :=
      List.mem_map_of_mem _ hmem
    rw [getD_of_getElem? seq t.toNat _ _ harr, kindConvert_bool] at hmem2
    exact hmem2

/-- Witness for C9 on the one-snapshot boolean example signal. -/
theorem c9_witness :
    ((exSignalB.get_item 0).map Snapshot.y = some none) ∧
    ∃ snap, exSignalB.get_item 0 = some snap ∧
      ("flag", (none : Option Tensor)) ∈ snap.additional := by
  obtain ⟨h1, h2⟩ := c9_silent_none [none] [none] [none] exbTG [none] exbKW
    exSignalB (by decide) 0 (by decide) (by decide)
  exact ⟨h1 [1] [true] (by decide),
    h2 "flag" [NDArray.boolArr [1] [false]] [1] [false] (by decide)
      (by decide)⟩

/-- C10: a negative index `t` with `-snapshot_count ≤ t < 0` does not fail:
every per-field accessor indexes with Python list semantics, which wrap, so
`__get_item__(t)` equals `__get_item__(snapshot_count + t)` and succeeds. -/
theorem c10_negative_wrap (ei ew f tg b : List (Option NDArray))
    (kw : List (String × List NDArray)) (s : Signal)
    (h : Signal.construct ei ew f tg b kw = some s) (t : Int)
    (h1 : -(s.snapshot_count : Int) ≤ t) (h2 : t < 0) :
    s.get_item t = s.get_item ((s.snapshot_count : Int) + t) ∧
    ∃ snap, s.get_item t = some snap := by
  obtain ⟨hs, hv⟩ := construct_some ei ew f tg b kw s h
  have hw := get_item_wrap s hv t h1 h2
  refine ⟨hw, ?_⟩
  rw [hw]
  have hnat : ((((s.snapshot_count : Int) + t).toNat : Nat) : Int) =
      (s.snapshot_count : Int) + t := Int.toNat_of_nonneg (by omega)
  have hgi := get_item_eq s hv ((s.snapshot_count : Int) + t).toNat (by omega)
  rw [hnat] at hgi
  exact ⟨_, hgi⟩

/-- Witness for C10: index -1 of the example signal wraps to index 1. -/
theorem c10_witness :
    exSignal.get_item (-1) =
      exSignal.get_item ((exSignal.snapshot_count : Int) + (-1)) ∧
    ∃ snap, exSignal.get_item (-1) = some snap :=
  c10_negative_wrap exEI exEW exF exTG exB exKW exSignal (by decide) (-1)
    (by decide) (by decide)

end DGTSB
